import Mathlib

/-!
# SnapLense — verification of the frame pipeline and capture state machine

A shallow embedding of `js/filters.js` and `js/camera.js`:

* the `FilterManager` effect registry (`registerFilter`, `setActiveFilter`,
  `getActiveFilter`);
* the pixel kernels (`negative`, the displacement family `rumble`, `water`,
  `cyclone`, `squeeze`, `squish`, and `glitch`);
* the compositor `drawVideoOnCanvas` (aspect-fill cropping, mirroring,
  context save/restore) over exact rational arithmetic;
* the capture/record state machine (press/release handlers, the 30-second
  hard-stop timer, `startRecording` / `stopRecording`).

Floating-point quantities that only select a displacement target
(`Math.sin`-based offsets, `Math.sqrt` radii, division by `0.7`) are
abstracted as function parameters; all structural behavior (iteration
order, in-place mutation, bounds checks, fallback colors) is modelled
exactly as written in the source.
-/

/-! ## Effect registry (`js/filters.js`, `FilterManager`) -/

inductive FilterKind
  | css
  | canvas
deriving DecidableEq, Repr

/-- One registry entry: `filters[id] = { id, name, type, applyFunc }`.
The `applyFunc` payload (a CSS class string or a kernel function) is
modelled separately by the kernel definitions below. -/
structure FilterDef where
  id : String
  name : String
  kind : FilterKind
deriving DecidableEq, Repr

/-- `registerFilter`: `filters[id] = { id, name, type, applyFunc }` on a JS
object — overwrite in place if the key exists, else append. -/
def registerFilter (fs : List FilterDef) (id name : String) (kind : FilterKind) :
    List FilterDef :=
  if fs.any (fun f => f.id = id) then
    fs.map (fun f => if f.id = id then ⟨id, name, kind⟩ else f)
  else
    fs ++ [⟨id, name, kind⟩]

/-- The registration calls executed at module load, in source order. -/
def filterTable : List (String × String × FilterKind) :=
  [("none", "None", .css), ("grayscale", "Grayscale", .css), ("sepia", "Sepia", .css),
   ("invert", "Invert", .css), ("contrast", "Contrast", .css),
   ("saturate", "Saturate", .css), ("hue-rotate", "Hue Rotate", .css),
   ("blur", "Blur", .css), ("brightness", "Brightness", .css), ("dark", "Dark", .css),
   ("warm", "Warm", .css), ("cold", "Cold", .css), ("vintage", "Vintage", .css),
   ("noir", "Noir", .css), ("lomo", "Lomo", .css), ("dreamy", "Dreamy", .css),
   ("faded", "Faded", .css), ("gotham", "Gotham", .css),
   ("cross-process", "Cross Process", .css), ("bleach-bypass", "Bleach Bypass", .css),
   ("pastel", "Pastel", .css), ("cyberpunk", "Cyberpunk", .css),
   ("infra-red", "Infra Red", .css), ("pop-art", "Pop Art", .css),
   ("neon", "Neon", .css), ("glow", "Glow", .css), ("duotone", "Duotone", .css),
   ("glitch", "Glitch", .canvas), ("rumble", "Rumble", .canvas),
   ("squeeze", "Squeeze", .canvas), ("rain", "Rain", .canvas),
   ("snow", "Snow", .canvas), ("sun", "Sun Glare", .canvas),
   ("moon", "Moon Glow", .canvas), ("stars", "Stars", .canvas),
   ("water", "Water Ripple", .canvas), ("rainbow", "Rainbow", .canvas),
   ("cyclone", "Cyclone", .canvas), ("drought", "Drought", .canvas),
   ("squish", "Squish", .canvas), ("pixelate", "Pixelate", .canvas),
   ("negative", "Negative", .canvas)]

def initialFilters : List FilterDef :=
  filterTable.foldl (fun fs t => registerFilter fs t.1 t.2.1 t.2.2) []

/-- The module-level mutable state of `FilterManager`:
`activeFilterId` and the `filters` object. -/
structure FMState where
  activeFilterId : String
  filters : List FilterDef
deriving DecidableEq, Repr

/-- State right after the IIFE runs: `activeFilterId = 'none'` and the full
registration table applied. -/
def initFM : FMState := { activeFilterId := "none", filters := initialFilters }

/-- JS object property lookup `filters[id]` (`undefined` becomes `none`). -/
def lookupFilter (fs : List FilterDef) (id : String) : Option FilterDef :=
  fs.find? (fun f => f.id = id)

/-- `setActiveFilter(id)`: update `activeFilterId` if `filters[id]` is truthy,
otherwise warn and leave the state unchanged. -/
def setActiveFilter (st : FMState) (id : String) : FMState :=
  if (lookupFilter st.filters id).isSome then
    { st with activeFilterId := id }
  else
    st

/-- `getActiveFilter()`: returns `filters[activeFilterId]`. -/
def getActiveFilter (st : FMState) : Option FilterDef :=
  lookupFilter st.filters st.activeFilterId

theorem lookupFilter_id {fs : List FilterDef} {id : String} {f : FilterDef}
    (h : lookupFilter fs id = some f) : f.id = id := by
  have := List.find?_some h
  simpa using this

/-- Claim C8: for every registered effect id `i`, `setActiveFilter i` followed by
`getActiveFilter` yields the effect whose id is `i`; for every id not in the
registry, `setActiveFilter` is a no-op and `getActiveFilter` is unchanged. -/
theorem setActiveFilter_getActiveFilter (st : FMState) (i : String) :
    ((lookupFilter st.filters i).isSome →
      ∃ f, getActiveFilter (setActiveFilter st i) = some f ∧ f.id = i) ∧
    (lookupFilter st.filters i = none →
      setActiveFilter st i = st ∧
      getActiveFilter (setActiveFilter st i) = getActiveFilter st) := by
  constructor
  · intro hreg
    rcases Option.isSome_iff_exists.mp hreg with ⟨f, hf⟩
    refine ⟨f, ?_, lookupFilter_id hf⟩
    simp [setActiveFilter, getActiveFilter, hreg, hf]
  · intro hnone
    have hns : (lookupFilter st.filters i).isSome = false := by simp [hnone]
    constructor <;> simp [setActiveFilter, hns]

/-- Witness for C8 at concrete inputs: `"sepia"` is registered and round-trips;
`"bogus"` is unregistered and the call is a no-op. -/
theorem setActiveFilter_getActiveFilter_witness :
    (∃ f, getActiveFilter (setActiveFilter initFM "sepia") = some f ∧
      f.id = "sepia") ∧
    (setActiveFilter initFM "bogus" = initFM ∧
      getActiveFilter (setActiveFilter initFM "bogus") = getActiveFilter initFM) :=
  ⟨(setActiveFilter_getActiveFilter initFM "sepia").1 (by decide),
   (setActiveFilter_getActiveFilter initFM "bogus").2 (by decide)⟩

/-- Counterexample to claim C9 as stated: from the reachable state obtained by
selecting `"sepia"`, requesting the unregistered id `"bogus"` leaves the active
effect at `"sepia"`, not at `"none"`. -/
theorem setActiveFilter_unknown_not_none :
    lookupFilter initFM.filters "bogus" = none ∧
    (getActiveFilter (setActiveFilter (setActiveFilter initFM "sepia") "bogus")).map
        FilterDef.id = some "sepia" ∧
    (getActiveFilter (setActiveFilter (setActiveFilter initFM "sepia") "bogus")).map
        FilterDef.id ≠ some "none" := by
  refine ⟨by decide, by decide, by decide⟩

/-- Claim C9 (amended): the active id always resolves to a registered effect —
if the active id currently resolves, it still resolves after any
`setActiveFilter` call — and a `setActiveFilter` call with an unregistered id
leaves the active effect unchanged (it does not reset it to `"none"`); the
initial active effect is `"none"`. -/
theorem activeFilter_resolves (st : FMState) (u : String)
    (hres : (getActiveFilter st).isSome) :
    (getActiveFilter (setActiveFilter st u)).isSome ∧
    (lookupFilter st.filters u = none →
      getActiveFilter (setActiveFilter st u) = getActiveFilter st) ∧
    (getActiveFilter initFM).map FilterDef.id = some "none" := by
  refine ⟨?_, ?_, by decide⟩
  · by_cases hu : (lookupFilter st.filters u).isSome
    · simp [setActiveFilter, getActiveFilter, hu]
    · simpa [setActiveFilter, hu] using hres
  · intro hnone
    have hns : (lookupFilter st.filters u).isSome = false := by simp [hnone]
    simp [setActiveFilter, hns]

/-- Witness for the amended C9 at a concrete input. -/
theorem activeFilter_resolves_witness :
    (getActiveFilter (setActiveFilter initFM "bogus")).isSome ∧
    (lookupFilter initFM.filters "bogus" = none →
      getActiveFilter (setActiveFilter initFM "bogus") = getActiveFilter initFM) ∧
    (getActiveFilter initFM).map FilterDef.id = some "none" :=
  activeFilter_resolves initFM "bogus" (by decide)

/-! ## The `negative` kernel (`js/filters.js`) -/

/-- The body of the `negative` kernel loop: for each RGBA group, each color
channel `c` becomes `255 - c` and the alpha channel is untouched.  A trailing
partial group (never produced by `ImageData`, whose length is `4*w*h`) has its
present color channels inverted, matching the clamped-array semantics of the
source loop. -/
def negativeCore : List Nat → List Nat
  | r :: g :: b :: a :: rest => (255 - r) :: (255 - g) :: (255 - b) :: a :: negativeCore rest
  | [r, g, b] => [255 - r, 255 - g, 255 - b]
  | [r, g] => [255 - r, 255 - g]
  | [r] => [255 - r]
  | [] => []

/-- The `negative` kernel: `(data, w, h)` with `w`, `h` unused (and the frame
index never read). -/
def negativeKernel (data : List Nat) (w h : Nat) : List Nat :=
  negativeCore data

theorem negativeCore_involutive :
    ∀ l : List Nat, (∀ c ∈ l, c ≤ 255) → negativeCore (negativeCore l) = l
  | [], _ => rfl
  | [r], h => by
    have hr : r ≤ 255 := h r (by simp)
    simp [negativeCore, Nat.sub_sub_self hr]
  | [r, g], h => by
    have hr : r ≤ 255 := h r (by simp)
    have hg : g ≤ 255 := h g (by simp)
    simp [negativeCore, Nat.sub_sub_self hr, Nat.sub_sub_self hg]
  | [r, g, b], h => by
    have hr : r ≤ 255 := h r (by simp)
    have hg : g ≤ 255 := h g (by simp)
    have hb : b ≤ 255 := h b (by simp)
    simp [negativeCore, Nat.sub_sub_self hr, Nat.sub_sub_self hg, Nat.sub_sub_self hb]
  | r :: g :: b :: a :: rest, h => by
    have hr : r ≤ 255 := h r (by simp)
    have hg : g ≤ 255 := h g (by simp)
    have hb : b ≤ 255 := h b (by simp)
    have hrest : ∀ c ∈ rest, c ≤ 255 := fun c hc => h c (by simp [hc])
    simp [negativeCore, Nat.sub_sub_self hr, Nat.sub_sub_self hg, Nat.sub_sub_self hb,
      negativeCore_involutive rest hrest]

theorem negativeCore_getElem? :
    ∀ (l : List Nat) (j : Nat),
      (negativeCore l)[j]? =
        if j % 4 = 3 then l[j]? else (l[j]?).map (fun c => 255 - c)
  | [], j => by simp [negativeCore]
  | [r], j => by
    match j with
    | 0 => simp [negativeCore]
    | 1 => simp [negativeCore]
    | 2 => simp [negativeCore]
    | 3 => simp [negativeCore]
    | (n + 4) => simp [negativeCore]
  | [r, g], j => by
    match j with
    | 0 => simp [negativeCore]
    | 1 => simp [negativeCore]
    | 2 => simp [negativeCore]
    | 3 => simp [negativeCore]
    | (n + 4) => simp [negativeCore]
  | [r, g, b], j => by
    match j with
    | 0 => simp [negativeCore]
    | 1 => simp [negativeCore]
    | 2 => simp [negativeCore]
    | 3 => simp [negativeCore]
    | (n + 4) => simp [negativeCore]
  | r :: g :: b :: a :: rest, j => by
    match j with
    | 0 => simp [negativeCore]
    | 1 => simp [negativeCore]
    | 2 => simp [negativeCore]
    | 3 => simp [negativeCore]
    | (n + 4) =>
      have ih := negativeCore_getElem? rest n
      have hmod : (n + 4) % 4 = n % 4 := by omega
      simp [negativeCore, hmod, ih]

/-- Claim C10: the `negative` kernel maps every R, G, B channel value `c` to
`255 - c`, leaves every alpha channel unchanged, and applying it twice (with
any widths and heights) restores the original buffer. -/
theorem negativeKernel_involutive (data : List Nat) (w h w2 h2 : Nat)
    (hle : ∀ c ∈ data, c ≤ 255) :
    negativeKernel (negativeKernel data w h) w2 h2 = data ∧
    (∀ j : Nat, j % 4 ≠ 3 →
      (negativeKernel data w h)[j]? = (data[j]?).map (fun c => 255 - c)) ∧
    (∀ j : Nat, j % 4 = 3 → (negativeKernel data w h)[j]? = data[j]?) := by
  refine ⟨negativeCore_involutive data hle, ?_, ?_⟩
  · intro j hj
    simpa [negativeKernel, hj] using negativeCore_getElem? data j
  · intro j hj
    simpa [negativeKernel, hj] using negativeCore_getElem? data j

/-- Witness for C10 on a concrete two-pixel buffer. -/
theorem negativeKernel_involutive_witness :
    negativeKernel (negativeKernel [10, 20, 30, 40, 50, 60, 70, 80] 2 1) 3 5 =
      [10, 20, 30, 40, 50, 60, 70, 80] ∧
    (negativeKernel [10, 20, 30, 40, 50, 60, 70, 80] 2 1)[3]? = some 40 := by
  have h := negativeKernel_involutive [10, 20, 30, 40, 50, 60, 70, 80] 2 1 3 5
    (by decide)
  refine ⟨h.1, ?_⟩
  have h3 := h.2.2 3 (by decide)
  rw [h3]
  decide

/-! ## Compositor (`js/filters.js`, `drawVideoOnCanvas`) -/

inductive Facing
  | user
  | environment
deriving DecidableEq, Repr

/-- Source rectangle `(sx, sy, sWidth, sHeight)` in exact rational
arithmetic. -/
structure SrcRect where
  sx : ℚ
  sy : ℚ
  sw : ℚ
  sh : ℚ
deriving DecidableEq, Repr

/-- Destination rectangle `(dx, dy, dWidth, dHeight)`. -/
structure DestRect where
  dx : ℚ
  dy : ℚ
  dw : ℚ
  dh : ℚ
deriving DecidableEq, Repr

/-- The comparison `video.videoWidth / video.videoHeight >
canvas.width / canvas.height` with IEEE semantics for a zero denominator:
`vw / 0` is `+inf` for `vw > 0` (greater than any finite ratio) and NaN for
`vw = 0` (every comparison false).  The canvas dimensions used by the callers
are the fixed positive `450 x 800`. -/
def videoRatioGtCanvas (vw vh cw ch : ℕ) : Bool :=
  if vh = 0 then decide (0 < vw)
  else decide ((vw : ℚ) / (vh : ℚ) > (cw : ℚ) / (ch : ℚ))

/-- The source-rectangle computation of `drawVideoOnCanvas`: crop the source
symmetrically so that the cropped rectangle has the canvas's aspect ratio. -/
def computeSourceRect (vw vh cw ch : ℕ) : SrcRect :=
  if videoRatioGtCanvas vw vh cw ch then
    let sH : ℚ := (vh : ℚ)
    let sW : ℚ := sH * ((cw : ℚ) / (ch : ℚ))
    ⟨((vw : ℚ) - sW) / 2, 0, sW, sH⟩
  else
    let sW : ℚ := (vw : ℚ)
    let sH : ℚ := sW / ((cw : ℚ) / (ch : ℚ))
    ⟨0, ((vh : ℚ) - sH) / 2, sW, sH⟩

/-- A 2D-context transform restricted to the x axis, `x ↦ m * x + t`
(the code only ever composes `translate(w, 0)` and `scale(-1, 1)`). -/
structure Transform where
  m : ℤ
  t : ℤ
deriving DecidableEq, Repr

def idT : Transform := ⟨1, 0⟩

def Transform.app (T : Transform) (x : ℤ) : ℤ := T.m * x + T.t

/-- `ctx.translate(d, 0)`: post-compose with a translation. -/
def Transform.translateBy (T : Transform) (d : ℤ) : Transform :=
  ⟨T.m, T.m * d + T.t⟩

/-- `ctx.scale(s, 1)`: post-compose with a scaling. -/
def Transform.scaleBy (T : Transform) (s : ℤ) : Transform :=
  ⟨T.m * s, T.t⟩

/-- The 2D context's transform state: current transform plus the
save/restore stack. -/
structure Ctx where
  cur : Transform
  stack : List Transform
deriving DecidableEq, Repr

def ctxSave (c : Ctx) : Ctx := { cur := c.cur, stack := c.cur :: c.stack }

def ctxRestore (c : Ctx) : Ctx :=
  match c.stack with
  | T :: rest => { cur := T, stack := rest }
  | [] => c

/-- What `ctx.drawImage(video, sx, sy, sw, sh, 0, 0, cw, ch)` did:
either it painted (recording the rectangles and the transform in force),
or it returned without painting.  Per the HTML canvas specification,
`drawImage` returns early — it does not throw — when the source rectangle
is empty. -/
inductive PaintOp
  | painted (src : SrcRect) (dest : DestRect) (T : Transform)
  | skipped
deriving DecidableEq, Repr

structure DrawOut where
  op : PaintOp
  ctx : Ctx
deriving DecidableEq, Repr

/-- The context state in force during the `drawImage` call: after
`ctx.save()` and, for the front camera, after
`ctx.translate(canvas.width, 0); ctx.scale(-1, 1)`. -/
def drawCtxDuringDraw (ctx0 : Ctx) (cw : ℕ) (facing : Facing) : Ctx :=
  if facing = Facing.user then
    { ctxSave ctx0 with cur := ((ctxSave ctx0).cur.translateBy (cw : ℤ)).scaleBy (-1) }
  else ctxSave ctx0

/-- `drawVideoOnCanvas(ctx, video, canvas, facingMode)`: compute the cover
crop, save the context, mirror when facing is `user`, draw, restore. -/
def drawVideoOnCanvas (ctx0 : Ctx) (vw vh cw ch : ℕ) (facing : Facing) : DrawOut :=
  { op :=
      if (computeSourceRect vw vh cw ch).sw = 0 ∨ (computeSourceRect vw vh cw ch).sh = 0
      then PaintOp.skipped
      else PaintOp.painted (computeSourceRect vw vh cw ch) ⟨0, 0, (cw : ℚ), (ch : ℚ)⟩
        (drawCtxDuringDraw ctx0 cw facing).cur,
    ctx := ctxRestore (drawCtxDuringDraw ctx0 cw facing) }

/-- The physical column that the unit-wide pixel cell `[x, x+1)` lands on
under the transform in force during `drawImage`: the left edge of its
image interval. -/
def pixelDestColumn (T : Transform) (x : ℤ) : ℤ :=
  min (T.app x) (T.app (x + 1))

theorem videoRatioGt_iff (vw vh : ℕ) (hh : 0 < vh) :
    videoRatioGtCanvas vw vh 450 800 = true ↔
      (450 : ℚ) / 800 < (vw : ℚ) / (vh : ℚ) := by
  have hne : vh ≠ 0 := Nat.pos_iff_ne_zero.mp hh
  simp [videoRatioGtCanvas, hne, gt_iff_lt]

/-- Claim C3: for every source frame with positive dimensions drawn onto the
fixed `450 x 800` target, the selected source sub-rectangle has exactly the
target's aspect ratio, is cropped symmetrically (centered on the cropped
axis, the other axis used in full), lies inside the source frame, and the
destination rectangle is the full canvas. -/
theorem compositor_aspect_fill (vw vh : ℕ) (hw : 0 < vw) (hh : 0 < vh) :
    (computeSourceRect vw vh 450 800).sw / (computeSourceRect vw vh 450 800).sh
      = (450 : ℚ) / 800 ∧
    0 < (computeSourceRect vw vh 450 800).sw ∧
    0 < (computeSourceRect vw vh 450 800).sh ∧
    (computeSourceRect vw vh 450 800).sx
      = ((vw : ℚ) - (computeSourceRect vw vh 450 800).sw) / 2 ∧
    (computeSourceRect vw vh 450 800).sy
      = ((vh : ℚ) - (computeSourceRect vw vh 450 800).sh) / 2 ∧
    0 ≤ (computeSourceRect vw vh 450 800).sx ∧
    (computeSourceRect vw vh 450 800).sx + (computeSourceRect vw vh 450 800).sw
      ≤ (vw : ℚ) ∧
    0 ≤ (computeSourceRect vw vh 450 800).sy ∧
    (computeSourceRect vw vh 450 800).sy + (computeSourceRect vw vh 450 800).sh
      ≤ (vh : ℚ) ∧
    (videoRatioGtCanvas vw vh 450 800 = true →
      (computeSourceRect vw vh 450 800).sh = (vh : ℚ) ∧
      (computeSourceRect vw vh 450 800).sy = 0) ∧
    (videoRatioGtCanvas vw vh 450 800 = false →
      (computeSourceRect vw vh 450 800).sw = (vw : ℚ) ∧
      (computeSourceRect vw vh 450 800).sx = 0) ∧
    ∀ (c : Ctx) (f : Facing), ∃ T,
      (drawVideoOnCanvas c vw vh 450 800 f).op =
        PaintOp.painted (computeSourceRect vw vh 450 800) ⟨0, 0, 450, 800⟩ T := by
  have hvw : (0 : ℚ) < (vw : ℚ) := by exact_mod_cast hw
  have hvh : (0 : ℚ) < (vh : ℚ) := by exact_mod_cast hh
  by_cases hb : videoRatioGtCanvas vw vh 450 800 = true
  · have hgt : (450 : ℚ) / 800 < (vw : ℚ) / (vh : ℚ) := (videoRatioGt_iff vw vh hh).mp hb
    have hkey : (vh : ℚ) * ((450 : ℚ) / 800) < (vw : ℚ) := by
      rw [div_lt_div_iff₀ (by norm_num) hvh] at hgt
      nlinarith
    have hswpos : 0 < (vh : ℚ) * ((450 : ℚ) / 800) := by positivity
    have hrect : computeSourceRect vw vh 450 800 =
        ⟨((vw : ℚ) - (vh : ℚ) * ((450 : ℚ) / 800)) / 2, 0,
          (vh : ℚ) * ((450 : ℚ) / 800), (vh : ℚ)⟩ := by
      simp only [computeSourceRect, hb, if_true]
      norm_num
    have hcond : ¬((computeSourceRect vw vh 450 800).sw = 0 ∨
        (computeSourceRect vw vh 450 800).sh = 0) := by
      rw [hrect]
      push_neg
      exact ⟨ne_of_gt hswpos, ne_of_gt hvh⟩
    rw [hrect]
    refine ⟨?_, hswpos, hvh, rfl, by ring, ?_, ?_, le_refl 0, by norm_num, ?_, ?_, ?_⟩
    · field_simp
      ring
    · dsimp only
      linarith
    · dsimp only
      linarith
    · intro _
      exact ⟨rfl, rfl⟩
    · intro hfalse
      rw [hb] at hfalse
      exact Bool.noConfusion hfalse
    · intro c f
      refine ⟨(drawCtxDuringDraw c 450 f).cur, ?_⟩
      simp only [drawVideoOnCanvas]
      rw [if_neg hcond, hrect]
      norm_num
  · have hbf : videoRatioGtCanvas vw vh 450 800 = false := by
      simpa using hb
    have hle : (vw : ℚ) / (vh : ℚ) ≤ (450 : ℚ) / 800 := by
      by_contra hlt
      exact hb ((videoRatioGt_iff vw vh hh).mpr (lt_of_not_le hlt))
    have hkey : (vw : ℚ) / ((450 : ℚ) / 800) ≤ (vh : ℚ) := by
      rw [div_le_div_iff₀ hvh (by norm_num)] at hle
      rw [div_le_iff₀ (by norm_num)]
      nlinarith
    have hshpos : 0 < (vw : ℚ) / ((450 : ℚ) / 800) := by positivity
    have hrect : computeSourceRect vw vh 450 800 =
        ⟨0, ((vh : ℚ) - (vw : ℚ) / ((450 : ℚ) / 800)) / 2,
          (vw : ℚ), (vw : ℚ) / ((450 : ℚ) / 800)⟩ := by
      simp only [computeSourceRect, hbf, Bool.false_eq_true, if_false]
      norm_num
    have hcond : ¬((computeSourceRect vw vh 450 800).sw = 0 ∨
        (computeSourceRect vw vh 450 800).sh = 0) := by
      rw [hrect]
      push_neg
      exact ⟨ne_of_gt hvw, ne_of_gt hshpos⟩
    rw [hrect]
    refine ⟨?_, hvw, hshpos, by ring, rfl, le_refl 0, by norm_num, ?_, ?_, ?_, ?_, ?_⟩
    · dsimp only
      have hvwne : (vw : ℚ) ≠ 0 := ne_of_gt hvw
      field_simp
      ring
    · dsimp only
      linarith
    · dsimp only
      linarith
    · intro htrue
      rw [hbf] at htrue
      exact Bool.noConfusion htrue
    · intro _
      exact ⟨rfl, rfl⟩
    · intro c f
      refine ⟨(drawCtxDuringDraw c 450 f).cur, ?_⟩
      simp only [drawVideoOnCanvas]
      rw [if_neg hcond, hrect]
      norm_num

/-- Witness for C3 at the concrete source sizes `900 x 800` (wider than the
target, width cropped) applied through the theorem. -/
theorem compositor_aspect_fill_witness :
    (computeSourceRect 900 800 450 800).sw / (computeSourceRect 900 800 450 800).sh
      = (450 : ℚ) / 800 ∧
    0 < (computeSourceRect 900 800 450 800).sw :=
  ⟨(compositor_aspect_fill 900 800 (by decide) (by decide)).1,
   (compositor_aspect_fill 900 800 (by decide) (by decide)).2.1⟩

/-- Claim C4: when facing is front (`user`), the transform in force during the
draw maps the source pixel cell at column `x` to physical column
`450 - 1 - x`; when facing is back (`environment`), it stays at column `x`;
and in both cases the context is restored immediately after drawing, so the
transform seen by later overlay drawing equals the original one. -/
theorem compositor_mirror (vw vh : ℕ) (x : ℤ) (stk : List Transform) :
    (∀ src dest T,
      (drawVideoOnCanvas ⟨idT, stk⟩ vw vh 450 800 Facing.user).op =
          PaintOp.painted src dest T →
      pixelDestColumn T x = 450 - 1 - x) ∧
    (∀ src dest T,
      (drawVideoOnCanvas ⟨idT, stk⟩ vw vh 450 800 Facing.environment).op =
          PaintOp.painted src dest T →
      pixelDestColumn T x = x) ∧
    (∀ (c : Ctx) (f : Facing), (drawVideoOnCanvas c vw vh 450 800 f).ctx = c) := by
  refine ⟨?_, ?_, ?_⟩
  · intro src dest T hT
    by_cases hc : (computeSourceRect vw vh 450 800).sw = 0 ∨
        (computeSourceRect vw vh 450 800).sh = 0
    · simp [drawVideoOnCanvas, hc] at hT
    · simp only [drawVideoOnCanvas, if_neg hc, PaintOp.painted.injEq] at hT
      obtain ⟨-, -, hTeq⟩ := hT
      rw [← hTeq]
      simp [drawCtxDuringDraw, ctxSave, idT, Transform.translateBy, Transform.scaleBy,
        pixelDestColumn, Transform.app]
      omega
  · intro src dest T hT
    by_cases hc : (computeSourceRect vw vh 450 800).sw = 0 ∨
        (computeSourceRect vw vh 450 800).sh = 0
    · simp [drawVideoOnCanvas, hc] at hT
    · simp only [drawVideoOnCanvas, if_neg hc, PaintOp.painted.injEq] at hT
      obtain ⟨-, -, hTeq⟩ := hT
      rw [← hTeq]
      simp [drawCtxDuringDraw, ctxSave, idT, pixelDestColumn, Transform.app]
  · intro c f
    cases f <;> simp [drawVideoOnCanvas, drawCtxDuringDraw, ctxSave, ctxRestore]

/-- Witness for C4 at source size `900 x 800`, pixel column `10`: mirrored to
column `439` with the front camera, kept at column `10` with the back
camera. -/
theorem compositor_mirror_witness :
    pixelDestColumn ⟨-1, 450⟩ 10 = 450 - 1 - 10 ∧ pixelDestColumn idT 10 = 10 :=
  ⟨(compositor_mirror 900 800 10 []).1 (computeSourceRect 900 800 450 800)
      ⟨0, 0, 450, 800⟩ ⟨-1, 450⟩ (by
        have hc : ¬((computeSourceRect 900 800 450 800).sw = 0 ∨
            (computeSourceRect 900 800 450 800).sh = 0) := by
          norm_num [computeSourceRect, videoRatioGtCanvas]
        simp only [drawVideoOnCanvas, if_neg hc]
        norm_num [drawCtxDuringDraw, ctxSave, idT, Transform.translateBy,
          Transform.scaleBy]),
   (compositor_mirror 900 800 10 []).2.1 (computeSourceRect 900 800 450 800)
      ⟨0, 0, 450, 800⟩ idT (by
        have hc : ¬((computeSourceRect 900 800 450 800).sw = 0 ∨
            (computeSourceRect 900 800 450 800).sh = 0) := by
          norm_num [computeSourceRect, videoRatioGtCanvas]
        simp only [drawVideoOnCanvas, if_neg hc]
        norm_num [drawCtxDuringDraw, ctxSave, idT]
        rfl)⟩

/-! ## Camera draw loop and photo capture (`js/camera.js`) -/

/-- The slice of the camera page state that the draw loop and the capture
paths touch. -/
structure CamState where
  readyState : ℕ
  paused : Bool
  ended : Bool
  vw : ℕ
  vh : ℕ
  facing : Facing
  frameCount : ℕ
  animationFrameId : Option ℕ
  streamActive : Bool
  ctx : Ctx
  lastOp : PaintOp
deriving DecidableEq, Repr

/-- The compositor step of `FilterManager.applyActiveFilter`: draws the base
video frame (the kernel pass that may follow operates on the painted pixels
and is modelled separately below). -/
def applyActiveFilterDraw (st : CamState) : CamState :=
  { st with
    ctx := (drawVideoOnCanvas st.ctx st.vw st.vh 450 800 st.facing).ctx,
    lastOp := (drawVideoOnCanvas st.ctx st.vw st.vh 450 800 st.facing).op }

/-- One tick of `drawFrame`: when the video is playing and buffered
(`readyState >= 2`), apply the active filter and reschedule; otherwise paint
black and still reschedule, so readiness is re-polled every tick. -/
def drawFrame (st : CamState) (nextId : ℕ) : CamState :=
  if st.paused = false ∧ st.ended = false ∧ 2 ≤ st.readyState then
    { applyActiveFilterDraw { st with frameCount := st.frameCount + 1 } with
        animationFrameId := some nextId }
  else
    { st with lastOp := PaintOp.skipped, animationFrameId := some nextId }

/-- `stopCamera`: stop the stream tracks and cancel the animation loop. -/
def stopCameraCam (st : CamState) : CamState :=
  { st with streamActive := false, animationFrameId := none }

/-- `takePhoto`: stop the camera, then perform one final
`applyActiveFilter` call to bake the last frame into the canvas. -/
def takePhotoCam (st : CamState) : CamState :=
  applyActiveFilterDraw (stopCameraCam st)

/-- Claim C7: with a zero-area source frame the compositor skips the frame
without painting and without raising (the draw returns with the context
unchanged); `drawFrame` reschedules the next tick in both its branches, so
callers keep scheduling future frames; and the photo-capture path, which
applies the compositor once after stopping the camera, also just skips the
frame. -/
theorem compositor_zero_area_safe (vw vh : ℕ) (hz : vw = 0 ∨ vh = 0)
    (c : Ctx) (f : Facing) :
    (drawVideoOnCanvas c vw vh 450 800 f).op = PaintOp.skipped ∧
    (drawVideoOnCanvas c vw vh 450 800 f).ctx = c ∧
    (∀ (st : CamState) (nid : ℕ), (drawFrame st nid).animationFrameId = some nid) ∧
    (∀ st : CamState, st.vw = vw → st.vh = vh →
      (takePhotoCam st).lastOp = PaintOp.skipped ∧
      (takePhotoCam st).animationFrameId = none ∧
      (takePhotoCam st).streamActive = false) := by
  have hsz : ∀ (vw0 vh0 : ℕ), vw0 = 0 ∨ vh0 = 0 →
      (computeSourceRect vw0 vh0 450 800).sw = 0 ∨
      (computeSourceRect vw0 vh0 450 800).sh = 0 := by
    intro vw0 vh0 h0
    rcases h0 with h0 | h0
    · subst h0
      by_cases hvh0 : vh0 = 0
      · subst hvh0
        right
        simp [computeSourceRect, videoRatioGtCanvas]
      · left
        have : videoRatioGtCanvas 0 vh0 450 800 = false := by
          simp [videoRatioGtCanvas, hvh0]
          positivity
        simp [computeSourceRect, this]
    · subst h0
      by_cases hvw0 : vw0 = 0
      · subst hvw0
        right
        simp [computeSourceRect, videoRatioGtCanvas]
      · right
        have : videoRatioGtCanvas vw0 0 450 800 = true := by
          simp [videoRatioGtCanvas, Nat.pos_of_ne_zero hvw0]
        simp [computeSourceRect, this]
  have hskip : ∀ (c0 : Ctx) (f0 : Facing),
      (drawVideoOnCanvas c0 vw vh 450 800 f0).op = PaintOp.skipped := by
    intro c0 f0
    simp [drawVideoOnCanvas, hsz vw vh hz]
  refine ⟨hskip c f, ?_, ?_, ?_⟩
  · cases f <;> simp [drawVideoOnCanvas, drawCtxDuringDraw, ctxSave, ctxRestore]
  · intro st nid
    by_cases hc : st.paused = false ∧ st.ended = false ∧ 2 ≤ st.readyState <;>
      simp [drawFrame, hc, applyActiveFilterDraw]
  · intro st hvwst hvhst
    refine ⟨?_, rfl, rfl⟩
    simp only [takePhotoCam, applyActiveFilterDraw, stopCameraCam]
    rw [hvwst, hvhst]
    exact hskip _ _

/-- Witness for C7 at a concrete zero-width source frame. -/
theorem compositor_zero_area_safe_witness :
    (drawVideoOnCanvas ⟨idT, []⟩ 0 100 450 800 Facing.environment).op =
      PaintOp.skipped ∧
    (takePhotoCam ⟨2, false, false, 0, 100, Facing.environment, 5, some 7, true,
        ⟨idT, []⟩, PaintOp.skipped⟩).lastOp = PaintOp.skipped :=
  ⟨(compositor_zero_area_safe 0 100 (Or.inl rfl) ⟨idT, []⟩ Facing.environment).1,
   ((compositor_zero_area_safe 0 100 (Or.inl rfl) ⟨idT, []⟩
      Facing.environment).2.2.2 _ rfl rfl).1⟩

/-! ## Displacement pixel kernels (`js/filters.js`)

A pixel is an RGBA quadruple; a buffer is the row-major pixel list of an
`ImageData` of size `w * h`.  The inverse-mapping kernels iterate the
destination index `i = y * w + x` in increasing order and assign
`data[i]` in place; `runPass` is that in-place loop, threading the live
buffer, while each kernel's rule computes the assigned value from the
`originalData` snapshot taken at kernel entry.  The `Math.sin` / `Math.cos` /
`Math.sqrt`-based coordinate arithmetic is floating point and is abstracted
as the displacement parameter `d` (and the guard / row-map parameters); the
structure — snapshot reads, bounds checks, fallback colors, iteration
order — is modelled exactly. -/

abbrev Pixel := Nat × Nat × Nat × Nat

abbrev Buffer := List Pixel

/-- Read pixel `i` (out-of-range reads return the JS `undefined`-style
zero value; they never occur at the indices the kernels use). -/
def getPix (data : Buffer) (i : Nat) : Pixel := data.getD i (0, 0, 0, 0)

/-- The in-place destination loop: visit each index in order and overwrite
the live buffer with the rule's value (`none` = the source leaves that
destination pixel untouched). -/
def runPass (val : Nat → Option Pixel) : Buffer → List Nat → Buffer
  | live, [] => live
  | live, i :: is =>
    runPass val
      (match val i with
        | some p => live.set i p
        | none => live) is

theorem runPass_append (val : Nat → Option Pixel) :
    ∀ (l1 l2 : List Nat) (live : Buffer),
      runPass val live (l1 ++ l2) = runPass val (runPass val live l1) l2
  | [], l2, live => rfl
  | i :: is, l2, live => by
    simp only [List.cons_append, runPass]
    exact runPass_append val is l2 _

theorem runPass_length (val : Nat → Option Pixel) :
    ∀ (is : List Nat) (live : Buffer), (runPass val live is).length = live.length
  | [], live => rfl
  | i :: is, live => by
    cases hv : val i <;> simp [runPass, hv, runPass_length val is]

/-- The central no-feedback lemma: running the in-place pass over destination
indices `0 .. n-1` assigns every visited pixel the value the rule computes —
which for all kernels below depends only on the entry snapshot — regardless
of the writes interleaved before it. -/
theorem runPass_range_getElem? (val : Nat → Option Pixel) (data : Buffer) :
    ∀ (n j : Nat),
      (runPass val data (List.range n))[j]? =
        if j < n then (data[j]?).map (fun p => (val j).getD p) else data[j]? := by
  intro n
  induction n with
  | zero => intro j; simp [runPass]
  | succ n ih =>
    intro j
    rw [List.range_succ, runPass_append]
    by_cases hj : j = n
    · subst hj
      cases hv : val j
      · simp only [runPass, hv]
        rw [ih j]
        simp [hv]
      · simp only [runPass, hv]
        rename_i p
        rw [List.getElem?_set_self']
        rw [ih j]
        simp only [lt_irrefl, if_false, Nat.lt_succ_self, if_true]
        cases data[j]? <;> simp [Function.const]
    · have hstep : (runPass val (runPass val data (List.range n)) [n])[j]? =
          (runPass val data (List.range n))[j]? := by
        cases hv : val n
        · simp [runPass, hv]
        · simp only [runPass, hv]
          exact List.getElem?_set_ne (by omega)
      rw [hstep, ih j]
      by_cases hjn : j < n
      · simp [hjn, Nat.lt_succ_of_lt hjn]
      · have h1 : ¬ j < n + 1 := by omega
        simp [hjn, h1]

/-- The buffer each kernel would produce if every read came from the entry
snapshot: pixel `j` is the rule's value computed from the original `data`
(or the original pixel where the rule does not write). -/
def passSpec (val : Nat → Option Pixel) (data : Buffer) : Buffer :=
  (List.range data.length).map (fun j => (val j).getD (getPix data j))

theorem runPass_eq_passSpec (val : Nat → Option Pixel) (data : Buffer)
    (w h : Nat) (hlen : data.length = w * h) :
    runPass val data (List.range (w * h)) = passSpec val data := by
  apply List.ext_getElem?
  intro j
  rw [runPass_range_getElem?, passSpec]
  by_cases hj : j < w * h
  · have hjd : j < data.length := by omega
    rw [List.getElem?_map, List.getElem?_range hjd]
    simp [hj, List.getElem?_eq_getElem hjd, getPix, List.getD_eq_getElem?_getD,
      List.getElem?_eq_getElem]
  · have hjd : data.length ≤ j := by omega
    have h1 : data[j]? = none := List.getElem?_eq_none_iff.mpr hjd
    have h2 : (List.range data.length)[j]? = none :=
      List.getElem?_eq_none_iff.mpr (by simpa using hjd)
    rw [List.getElem?_map, h1, h2]
    simp [hj]

/-- Bounds test `newX >= 0 && newX < w && newY >= 0 && newY < h`. -/
def inBoundsZ (w h : Nat) (p : ℤ × ℤ) : Prop :=
  0 ≤ p.1 ∧ p.1 < (w : ℤ) ∧ 0 ≤ p.2 ∧ p.2 < (h : ℤ)

instance (w h : Nat) (p : ℤ × ℤ) : Decidable (inBoundsZ w h p) := by
  unfold inBoundsZ
  infer_instance

/-- Read `originalData[(newY * w + newX) * 4 .. +3]` when the displaced
coordinate is in bounds, else the fallback color. -/
def dispRead (data : Buffer) (w h : Nat) (p : ℤ × ℤ) (fb : Pixel) : Pixel :=
  if inBoundsZ w h p then getPix data (p.2.toNat * w + p.1.toNat) else fb

/-- `rumble`: each destination `(x, y)` reads the snapshot at the
sine-displaced coordinate `d x y`, with opaque-black fallback.  The
floating-point displacement `(Math.floor(x + dx), Math.floor(y + dy))` is the
abstracted parameter `d`. -/
def rumbleRule (data : Buffer) (w h : Nat) (d : Nat → Nat → ℤ × ℤ) (i : Nat) :
    Option Pixel :=
  some (dispRead data w h (d (i % w) (i / w)) (0, 0, 0, 255))

def rumbleKernel (d : Nat → Nat → ℤ × ℤ) (data : Buffer) (w h : Nat) : Buffer :=
  runPass (rumbleRule data w h d) data (List.range (w * h))

/-- `water`, displacement pass: same structure as `rumble` (ripple
displacement abstracted as `d`), opaque-black fallback. -/
def waterRule (data : Buffer) (w h : Nat) (d : Nat → Nat → ℤ × ℤ) (i : Nat) :
    Option Pixel :=
  some (dispRead data w h (d (i % w) (i / w)) (0, 0, 0, 255))

/-- `water`, second pass: `r = max(0, r-10); g = min(255, g+10);
b = min(255, b+20)`, alpha untouched. -/
def waterColor (p : Pixel) : Pixel :=
  (p.1 - 10, min 255 (p.2.1 + 10), min 255 (p.2.2.1 + 20), p.2.2.2)

def waterKernel (d : Nat → Nat → ℤ × ℤ) (data : Buffer) (w h : Nat) : Buffer :=
  (runPass (waterRule data w h d) data (List.range (w * h))).map waterColor

/-- `cyclone`, displacement pass: twist displacement abstracted as `d`,
opaque-black fallback. -/
def cycloneRule (data : Buffer) (w h : Nat) (d : Nat → Nat → ℤ × ℤ) (i : Nat) :
    Option Pixel :=
  some (dispRead data w h (d (i % w) (i / w)) (0, 0, 0, 255))

/-- `cyclone`, second pass: per-pixel graying (`avg * 0.8` on each channel is
floating point and abstracted as `post`). -/
def cycloneKernel (d : Nat → Nat → ℤ × ℤ) (post : Pixel → Pixel)
    (data : Buffer) (w h : Nat) : Buffer :=
  (runPass (cycloneRule data w h d) data (List.range (w * h))).map post

/-- `squeeze`: only pixels inside the radius (`dist < radius`, a
floating-point test abstracted as `inRadius`) are displaced; they read the
snapshot at `d x y` with opaque-black fallback; pixels outside the radius
are left untouched. -/
def squeezeRule (data : Buffer) (w h : Nat) (inRadius : Nat → Nat → Bool)
    (d : Nat → Nat → ℤ × ℤ) (i : Nat) : Option Pixel :=
  if inRadius (i % w) (i / w) then
    some (dispRead data w h (d (i % w) (i / w)) (0, 0, 0, 255))
  else none

def squeezeKernel (inRadius : Nat → Nat → Bool) (d : Nat → Nat → ℤ × ℤ)
    (data : Buffer) (w h : Nat) : Buffer :=
  runPass (squeezeRule data w h inRadius d) data (List.range (w * h))

/-- `squish`: destination row `y` reads source row
`originalY = Math.floor(y / 0.7)` (floating-point division abstracted as
`rowMap`); rows mapped past the bottom get the transparent fallback
`(0, 0, 0, 0)` — the one cropping effect that uses transparency. -/
def squishRule (data : Buffer) (w h : Nat) (rowMap : Nat → Nat) (i : Nat) :
    Option Pixel :=
  if rowMap (i / w) < h then
    some (getPix data (rowMap (i / w) * w + i % w))
  else
    some (0, 0, 0, 0)

def squishKernel (rowMap : Nat → Nat) (data : Buffer) (w h : Nat) : Buffer :=
  runPass (squishRule data w h rowMap) data (List.range (w * h))

/-- Claim C5 (amended): the displacement kernels `rumble`, `water`,
`cyclone`, `squeeze` and `squish` read pixel values only from the
`originalData` snapshot taken at kernel entry and write only into the live
buffer: their in-place destination loops produce exactly the buffer
described by `passSpec`, whose every pixel is computed from the original
buffer alone — for every displacement map, radius guard, row map and color
post-pass.  (`glitch` is excluded: see the counterexample.) -/
theorem displacement_kernels_snapshot (w h : Nat) (data : Buffer)
    (hlen : data.length = w * h) (d : Nat → Nat → ℤ × ℤ)
    (inRadius : Nat → Nat → Bool) (rowMap : Nat → Nat) (post : Pixel → Pixel) :
    rumbleKernel d data w h = passSpec (rumbleRule data w h d) data ∧
    waterKernel d data w h = (passSpec (waterRule data w h d) data).map waterColor ∧
    cycloneKernel d post data w h = (passSpec (cycloneRule data w h d) data).map post ∧
    squeezeKernel inRadius d data w h =
      passSpec (squeezeRule data w h inRadius d) data ∧
    squishKernel rowMap data w h = passSpec (squishRule data w h rowMap) data := by
  refine ⟨?_, ?_, ?_, ?_, ?_⟩
  · exact runPass_eq_passSpec _ data w h hlen
  · rw [waterKernel, runPass_eq_passSpec _ data w h hlen]
  · rw [cycloneKernel, runPass_eq_passSpec _ data w h hlen]
  · exact runPass_eq_passSpec _ data w h hlen
  · exact runPass_eq_passSpec _ data w h hlen

/-- Witness for the amended C5: a concrete `2 x 2` buffer with a concrete
shift-by-one displacement. -/
theorem displacement_kernels_snapshot_witness :
    rumbleKernel (fun x y => ((x : ℤ) + 1, (y : ℤ)))
        [(1, 2, 3, 255), (4, 5, 6, 255), (7, 8, 9, 255), (10, 11, 12, 255)] 2 2 =
      passSpec
        (rumbleRule [(1, 2, 3, 255), (4, 5, 6, 255), (7, 8, 9, 255), (10, 11, 12, 255)]
          2 2 (fun x y => ((x : ℤ) + 1, (y : ℤ))))
        [(1, 2, 3, 255), (4, 5, 6, 255), (7, 8, 9, 255), (10, 11, 12, 255)] :=
  (displacement_kernels_snapshot 2 2
    [(1, 2, 3, 255), (4, 5, 6, 255), (7, 8, 9, 255), (10, 11, 12, 255)] rfl
    (fun x y => ((x : ℤ) + 1, (y : ℤ))) (fun _ _ => true) (fun y => y) id).1

/-- Claim C6: in every displacement kernel, a destination pixel whose
computed source coordinate falls outside `[0,w) x [0,h)` is assigned the
deterministic opaque-black fallback `(0,0,0,255)` — except `squish`, the
cropping effect, which assigns transparent `(0,0,0,0)` — and no destination
pixel is left undefined (the output buffer keeps the full `w * h` length). -/
theorem displacement_kernels_fallback (w h : Nat) (data : Buffer)
    (hlen : data.length = w * h) (d : Nat → Nat → ℤ × ℤ)
    (inRadius : Nat → Nat → Bool) (rowMap : Nat → Nat) (j : Nat)
    (hj : j < w * h) :
    (¬ inBoundsZ w h (d (j % w) (j / w)) →
      (rumbleKernel d data w h)[j]? = some (0, 0, 0, 255) ∧
      (runPass (waterRule data w h d) data (List.range (w * h)))[j]? =
        some (0, 0, 0, 255) ∧
      (runPass (cycloneRule data w h d) data (List.range (w * h)))[j]? =
        some (0, 0, 0, 255) ∧
      (inRadius (j % w) (j / w) = true →
        (squeezeKernel inRadius d data w h)[j]? = some (0, 0, 0, 255))) ∧
    (h ≤ rowMap (j / w) →
      (squishKernel rowMap data w h)[j]? = some (0, 0, 0, 0)) ∧
    (rumbleKernel d data w h).length = data.length ∧
    (squishKernel rowMap data w h).length = data.length := by
  have hjd : j < data.length := by omega
  have hsome : data[j]? = some (data.get ⟨j, hjd⟩) := by
    simp [List.getElem?_eq_getElem hjd]
  refine ⟨?_, ?_, ?_, ?_⟩
  · intro hob
    refine ⟨?_, ?_, ?_, ?_⟩
    · rw [rumbleKernel, runPass_range_getElem? _ data _ j]
      simp [hj, hsome, rumbleRule, dispRead, hob]
    · rw [runPass_range_getElem? _ data _ j]
      simp [hj, hsome, waterRule, dispRead, hob]
    · rw [runPass_range_getElem? _ data _ j]
      simp [hj, hsome, cycloneRule, dispRead, hob]
    · intro hg
      rw [squeezeKernel, runPass_range_getElem? _ data _ j]
      simp [hj, hsome, squeezeRule, hg, dispRead, hob]
  · intro hrow
    rw [squishKernel, runPass_range_getElem? _ data _ j]
    simp [hj, hsome, squishRule, Nat.not_lt_of_le hrow]
  · exact runPass_length _ _ _
  · exact runPass_length _ _ _

/-- Witness for C6 on a concrete `2 x 2` buffer with a displacement that
leaves the frame and a row map past the bottom. -/
theorem displacement_kernels_fallback_witness :
    (rumbleKernel (fun _ _ => (-1, -1))
        [(1, 2, 3, 255), (4, 5, 6, 255), (7, 8, 9, 255), (10, 11, 12, 255)]
        2 2)[0]? = some (0, 0, 0, 255) ∧
    (squishKernel (fun _ => 2)
        [(1, 2, 3, 255), (4, 5, 6, 255), (7, 8, 9, 255), (10, 11, 12, 255)]
        2 2)[0]? = some (0, 0, 0, 0) :=
  ⟨((displacement_kernels_fallback 2 2
      [(1, 2, 3, 255), (4, 5, 6, 255), (7, 8, 9, 255), (10, 11, 12, 255)] rfl
      (fun _ _ => (-1, -1)) (fun _ _ => true) (fun _ => 2) 0 (by decide)).1
      (by decide)).1,
   (displacement_kernels_fallback 2 2
      [(1, 2, 3, 255), (4, 5, 6, 255), (7, 8, 9, 255), (10, 11, 12, 255)] rfl
      (fun _ _ => (-1, -1)) (fun _ _ => true) (fun _ => 2) 0 (by decide)).2.1
      (by decide)⟩

/-! ## The `glitch` kernel (`js/filters.js`)

`glitch` is the one displacement kernel that takes no snapshot: it reads
`data[srcIdx]` and writes `data[destIdx]` in the same live buffer.  Its
per-block parameters (`offset`, `xStart`, `blockWidth`) come from
`Math.random()` and a `Math.sin` severity; they are abstracted as the
`blocks` parameter (the concrete values used below are reachable, e.g. at
`frameCount = 0` the severity is exactly 2). -/

structure GlitchBlock where
  offset : ℤ
  xStart : Nat
  blockWidth : Nat
deriving DecidableEq, Repr

/-- The channel shuffle written at the destination:
`(r,g,b,a)` at the source becomes `(b,g,r,a)` at the destination. -/
def pixSwapRB (p : Pixel) : Pixel := (p.2.2.1, p.2.1, p.1, p.2.2.2)

/-- The inner `dx` loop of one block row, reading from the LIVE buffer
(exactly as the source does: `data[srcIdx]` then `data[destIdx] = ...`).
`break` at `xStart + dx >= w` stops the row. -/
def glitchRowLive (w h : Nat) (offset : ℤ) (xStart srcY : Nat) :
    List Nat → Buffer → Buffer
  | [], live => live
  | dx :: rest, live =>
    if w ≤ xStart + dx then live
    else
      glitchRowLive w h offset xStart srcY rest
        (if 0 ≤ (xStart + dx : ℤ) + offset ∧ (xStart + dx : ℤ) + offset < (w : ℤ) ∧
            srcY < h then
          live.set (srcY * w + ((xStart + dx : ℤ) + offset).toNat)
            (pixSwapRB (getPix live (srcY * w + (xStart + dx))))
        else live)

/-- The `dy` loop over the (up to ten) rows of one block;
`break` at `y + dy >= h`. -/
def glitchBlockLive (w h : Nat) (offset : ℤ) (xStart blockWidth y : Nat) :
    List Nat → Buffer → Buffer
  | [], live => live
  | dy :: rest, live =>
    if h ≤ y + dy then live
    else
      glitchBlockLive w h offset xStart blockWidth y rest
        (glitchRowLive w h offset xStart (y + dy) (List.range blockWidth) live)

/-- The `glitch` kernel: blocks of height 10 starting at
`y = 0, 10, 20, ...`; a block with `offset = 0` is skipped. -/
def glitchKernel (blocks : Nat → GlitchBlock) (data : Buffer) (w h : Nat) :
    Buffer :=
  (List.range ((h + 9) / 10)).foldl
    (fun live k =>
      if (blocks k).offset = 0 then live
      else
        glitchBlockLive w h (blocks k).offset (blocks k).xStart
          (blocks k).blockWidth (k * 10) (List.range 10) live)
    data

/-- Modelled from the spec: the variant of the `glitch` loop that the kernel
contract of spec section 4.2 requires — identical control flow, but every
source read comes from an immutable snapshot of the buffer taken at kernel
entry instead of from the live buffer. -/
def glitchRowSnap (snap : Buffer) (w h : Nat) (offset : ℤ) (xStart srcY : Nat) :
    List Nat → Buffer → Buffer
  | [], live => live
  | dx :: rest, live =>
    if w ≤ xStart + dx then live
    else
      glitchRowSnap snap w h offset xStart srcY rest
        (if 0 ≤ (xStart + dx : ℤ) + offset ∧ (xStart + dx : ℤ) + offset < (w : ℤ) ∧
            srcY < h then
          live.set (srcY * w + ((xStart + dx : ℤ) + offset).toNat)
            (pixSwapRB (getPix snap (srcY * w + (xStart + dx))))
        else live)

def glitchBlockSnap (snap : Buffer) (w h : Nat) (offset : ℤ)
    (xStart blockWidth y : Nat) : List Nat → Buffer → Buffer
  | [], live => live
  | dy :: rest, live =>
    if h ≤ y + dy then live
    else
      glitchBlockSnap snap w h offset xStart blockWidth y rest
        (glitchRowSnap snap w h offset xStart (y + dy) (List.range blockWidth) live)

/-- Modelled from the spec: `glitch` with all reads taken from the entry
snapshot. -/
def glitchKernelSnap (blocks : Nat → GlitchBlock) (data : Buffer) (w h : Nat) :
    Buffer :=
  (List.range ((h + 9) / 10)).foldl
    (fun live k =>
      if (blocks k).offset = 0 then live
      else
        glitchBlockSnap data w h (blocks k).offset (blocks k).xStart
          (blocks k).blockWidth (k * 10) (List.range 10) live)
    data

/-- Counterexample to claim C5 as stated: on a `5 x 1` frame of pairwise
distinct pixels, with the reachable block parameters
`offset = 1, xStart = 0, blockWidth = 4` (`frameCount = 0`, so severity is
exactly 2, and `Math.random()` draws `0.75`, `0.4`, `0.0`), the `glitch`
kernel's live-buffer execution differs from the snapshot-reading execution
the claim asserts — at destination pixel 2 it writes a value derived from
the pixel it itself overwrote at destination 1 — so `glitch` does read
already-mutated output. -/
theorem glitch_reads_mutated_output :
    glitchKernel (fun _ => ⟨1, 0, 4⟩)
        [(10, 11, 12, 255), (20, 21, 22, 255), (30, 31, 32, 255),
         (40, 41, 42, 255), (50, 51, 52, 255)] 5 1 ≠
      glitchKernelSnap (fun _ => ⟨1, 0, 4⟩)
        [(10, 11, 12, 255), (20, 21, 22, 255), (30, 31, 32, 255),
         (40, 41, 42, 255), (50, 51, 52, 255)] 5 1 ∧
    (glitchKernel (fun _ => ⟨1, 0, 4⟩)
        [(10, 11, 12, 255), (20, 21, 22, 255), (30, 31, 32, 255),
         (40, 41, 42, 255), (50, 51, 52, 255)] 5 1)[2]? =
      some (10, 11, 12, 255) ∧
    (glitchKernelSnap (fun _ => ⟨1, 0, 4⟩)
        [(10, 11, 12, 255), (20, 21, 22, 255), (30, 31, 32, 255),
         (40, 41, 42, 255), (50, 51, 52, 255)] 5 1)[2]? =
      some (22, 21, 20, 255) := by
  refine ⟨by decide, by decide, by decide⟩


/-! ## Capture/record state machine (`js/camera.js`)

The state slice the press/release handlers and the two timers touch: the
`isRecording` flag, the `mediaRecorder` variable (`none` while null, else
its state), the 30-second auto-stop timeout, the press-threshold timer, and
counters instrumenting how many times `mediaRecorder.stop()` and
`takePhoto()` run.  All handlers run in single callback turns, so each
event's effect is a pure step function on this state. -/

inductive MRState
  | inactive
  | recording
deriving DecidableEq, Repr

structure RecState where
  isRecording : Bool
  recorder : Option MRState
  timeoutArmed : Bool
  timeoutDelayMs : Nat
  pressTimerArmed : Bool
  stopCount : Nat
  photoCount : Nat
  reviewing : Bool
deriving DecidableEq, Repr

/-- The live-camera state before any press: no recorder, no timers. -/
def initLive : RecState :=
  { isRecording := false, recorder := none, timeoutArmed := false,
    timeoutDelayMs := 0, pressTimerArmed := false, stopCount := 0,
    photoCount := 0, reviewing := false }

/-- `mediaRecorder.stop()` together with the consequences of the `onstop`
handler it triggers: the stop invocation is counted, the recorder leaves the
`'recording'` state, and `onstop` clears `isRecording` and shows the review
UI. -/
def recorderStop (st : RecState) : RecState :=
  { st with stopCount := st.stopCount + 1, recorder := some .inactive,
            isRecording := false, reviewing := true }

/-- `startRecording` (after its stream guard passes): set `isRecording`,
create and start the recorder, and arm the 30000 ms auto-stop timeout. -/
def startRecording (st : RecState) : RecState :=
  { st with isRecording := true, recorder := some .recording,
            timeoutArmed := true, timeoutDelayMs := 30000 }

/-- `stopRecording`: stop the recorder and clear the auto-stop timeout, but
only when `isRecording && mediaRecorder && mediaRecorder.state ===
'recording'`; otherwise warn and do nothing. -/
def stopRecording (st : RecState) : RecState :=
  if st.isRecording = true ∧ st.recorder = some .recording then
    { recorderStop st with timeoutArmed := false }
  else st

/-- The 30-second `setTimeout` callback: deliverable only while the timeout
is armed (`clearTimeout` prevents it); firing consumes the one-shot timer,
and the body stops the recorder only `if (isRecording)`. -/
def hardStopFire (st : RecState) : RecState :=
  if st.timeoutArmed = true then
    if st.isRecording = true then
      recorderStop { st with timeoutArmed := false }
    else
      { st with timeoutArmed := false }
  else st

/-- `takePhoto` as it affects this state slice: the invocation is counted
(the canvas-side effect is `takePhotoCam` above). -/
def takePhotoRec (st : RecState) : RecState :=
  { st with photoCount := st.photoCount + 1 }

/-- What a release handler decided to do. -/
inductive ReleaseAction
  | stoppedRecording
  | letRecordingFinish
  | tookPhoto
deriving DecidableEq, Repr

/-- The `mouseup` handler: `clearTimeout(pressTimer)`, then
`if (isRecording) stopRecording()`, else if the recorder exists and reports
`'recording'` let the recording finish, else take a photo. -/
def mouseupStep (st : RecState) : RecState × ReleaseAction :=
  if st.isRecording = true then
    (stopRecording { st with pressTimerArmed := false }, .stoppedRecording)
  else if st.recorder = some .recording then
    ({ st with pressTimerArmed := false }, .letRecordingFinish)
  else
    (takePhotoRec { st with pressTimerArmed := false }, .tookPhoto)

/-- The `touchend` handler — the same branch structure as `mouseup`. -/
def touchendStep (st : RecState) : RecState × ReleaseAction :=
  if st.isRecording = true then
    (stopRecording { st with pressTimerArmed := false }, .stoppedRecording)
  else if st.recorder = some .recording then
    ({ st with pressTimerArmed := false }, .letRecordingFinish)
  else
    (takePhotoRec { st with pressTimerArmed := false }, .tookPhoto)

/-- Claim C1: on release (mouseup or touchend) delivered while `isRecording`
is true or the media recorder's state is `'recording'`, the photo path never
fires — `takePhoto` is not invoked; when `isRecording` is set, release
finalizes the recording (the recorder's stop runs, entering review); when
only the recorder reports `'recording'`, release leaves the recording
running to its own finalization; and either handler takes a photo only when
no recording was started. -/
theorem release_never_photo_while_recording (st : RecState)
    (h : st.isRecording = true ∨ st.recorder = some .recording) :
    (mouseupStep st).2 ≠ .tookPhoto ∧
    (mouseupStep st).1.photoCount = st.photoCount ∧
    (touchendStep st).2 ≠ .tookPhoto ∧
    (touchendStep st).1.photoCount = st.photoCount ∧
    (st.isRecording = true → st.recorder = some .recording →
      (mouseupStep st).1.stopCount = st.stopCount + 1 ∧
      (mouseupStep st).1.reviewing = true ∧
      (mouseupStep st).2 = .stoppedRecording ∧
      (touchendStep st).1.stopCount = st.stopCount + 1) ∧
    (st.isRecording = false → st.recorder = some .recording →
      (mouseupStep st).2 = .letRecordingFinish ∧
      (mouseupStep st).1.recorder = some .recording) ∧
    (∀ st2 : RecState, (mouseupStep st2).2 = .tookPhoto ∨
        (touchendStep st2).2 = .tookPhoto →
      st2.isRecording = false ∧ st2.recorder ≠ some .recording) := by
  have hphoto : ∀ st2 : RecState, (mouseupStep st2).2 = .tookPhoto ∨
      (touchendStep st2).2 = .tookPhoto →
      st2.isRecording = false ∧ st2.recorder ≠ some MRState.recording := by
    intro st2 h2
    by_cases hr : st2.isRecording = true
    · rcases h2 with h2 | h2 <;> simp [mouseupStep, touchendStep, hr] at h2
    · have hrf : st2.isRecording = false := by
        cases hv : st2.isRecording
        · rfl
        · exact absurd hv hr
      by_cases hm : st2.recorder = some MRState.recording
      · rcases h2 with h2 | h2 <;>
          simp [mouseupStep, touchendStep, hrf, hm] at h2
      · exact ⟨hrf, hm⟩
  have hnophoto : (mouseupStep st).2 ≠ .tookPhoto ∧
      (touchendStep st).2 ≠ .tookPhoto := by
    constructor
    · intro hcontra
      rcases hphoto st (Or.inl hcontra) with ⟨h1, h2⟩
      rcases h with h | h
      · rw [h1] at h
        cases h
      · exact h2 h
    · intro hcontra
      rcases hphoto st (Or.inr hcontra) with ⟨h1, h2⟩
      rcases h with h | h
      · rw [h1] at h
        cases h
      · exact h2 h
  refine ⟨hnophoto.1, ?_, hnophoto.2, ?_, ?_, ?_, hphoto⟩
  · by_cases hr : st.isRecording = true
    · simp only [mouseupStep, hr, if_true]
      simp only [stopRecording, recorderStop, hr, true_and]
      split <;> rfl
    · have hm : st.recorder = some MRState.recording := by
        rcases h with h | h
        · exact absurd h hr
        · exact h
      simp [mouseupStep, hr, hm]
  · by_cases hr : st.isRecording = true
    · simp only [touchendStep, hr, if_true]
      simp only [stopRecording, recorderStop, hr, true_and]
      split <;> rfl
    · have hm : st.recorder = some MRState.recording := by
        rcases h with h | h
        · exact absurd h hr
        · exact h
      simp [touchendStep, hr, hm]
  · intro hr hm
    simp [mouseupStep, touchendStep, hr, stopRecording, recorderStop, hm]
  · intro hr hm
    simp [mouseupStep, hr, hm]

/-- Witness for C1 at the concrete state right after `startRecording`. -/
theorem release_never_photo_while_recording_witness :
    (mouseupStep (startRecording initLive)).2 ≠ .tookPhoto ∧
    (mouseupStep (startRecording initLive)).1.photoCount =
      (startRecording initLive).photoCount ∧
    (mouseupStep (startRecording initLive)).1.stopCount =
      (startRecording initLive).stopCount + 1 :=
  ⟨(release_never_photo_while_recording (startRecording initLive) (Or.inl rfl)).1,
   (release_never_photo_while_recording (startRecording initLive) (Or.inl rfl)).2.1,
   ((release_never_photo_while_recording (startRecording initLive)
      (Or.inl rfl)).2.2.2.2.1 rfl rfl).1⟩

/-- The two event sources that can reach a recording in progress: the user
releasing/leaving/cancelling (all of which call `stopRecording`) and the
30-second timer firing. -/
inductive RecEvent
  | manualStop
  | timerFire
deriving DecidableEq, Repr

def recStep (st : RecState) : RecEvent → RecState
  | .manualStop => stopRecording st
  | .timerFire => hardStopFire st

def runRec (st : RecState) (es : List RecEvent) : RecState :=
  es.foldl recStep st

/-- A recording in progress: flag set, recorder recording, auto-stop armed,
no stop yet. -/
def RecActive (st : RecState) : Prop :=
  st.isRecording = true ∧ st.recorder = some .recording ∧
  st.timeoutArmed = true ∧ st.stopCount = 0 ∧ st.reviewing = false

/-- A finished recording: recorder stopped exactly once, timer disarmed,
review state entered. -/
def RecDone (st : RecState) : Prop :=
  st.isRecording = false ∧ st.timeoutArmed = false ∧
  st.stopCount = 1 ∧ st.reviewing = true

theorem recStep_active_done {st : RecState} (ha : RecActive st) (e : RecEvent) :
    RecDone (recStep st e) := by
  obtain ⟨h1, h2, h3, h4, h5⟩ := ha
  cases e
  · simp [recStep, stopRecording, recorderStop, RecDone, h1, h2, h4]
  · simp [recStep, hardStopFire, recorderStop, RecDone, h1, h3, h4]

theorem recStep_done_done {st : RecState} (hd : RecDone st) (e : RecEvent) :
    RecDone (recStep st e) := by
  obtain ⟨h1, h2, h3, h4⟩ := hd
  cases e
  · simp [recStep, stopRecording, RecDone, h1, h2, h3, h4]
  · simp [recStep, hardStopFire, RecDone, h1, h2, h3, h4]

theorem runRec_done {st : RecState} (hd : RecDone st) :
    ∀ es : List RecEvent, RecDone (runRec st es) := by
  intro es
  induction es generalizing st with
  | nil => exact hd
  | cons e rest ih => exact ih (recStep_done_done hd e)

theorem runRec_active {st : RecState} (ha : RecActive st) :
    ∀ es : List RecEvent, es ≠ [] → RecDone (runRec st es) := by
  intro es hne
  cases es with
  | nil => exact absurd rfl hne
  | cons e rest => exact runRec_done (recStep_active_done ha e) rest

/-- Claim C2: `startRecording` arms the hard-stop timer with a 30000 ms
delay; if it is never stopped manually, the timer event stops the recorder
exactly once and enters review; a manual stop clears the timer, after which
a timer firing is a no-op; and over every sequence of stop/timer events the
recorder's stop runs at most once — exactly once as soon as any such event
is delivered. -/
theorem recording_stops_exactly_once (es : List RecEvent) (hne : es ≠ []) :
    (startRecording initLive).timeoutDelayMs = 30000 ∧
    (startRecording initLive).timeoutArmed = true ∧
    (runRec (startRecording initLive) es).stopCount = 1 ∧
    (runRec (startRecording initLive) es).reviewing = true ∧
    (runRec (startRecording initLive) es).isRecording = false ∧
    (runRec (startRecording initLive) []).stopCount = 0 ∧
    (stopRecording (startRecording initLive)).timeoutArmed = false ∧
    hardStopFire (stopRecording (startRecording initLive)) =
      stopRecording (startRecording initLive) ∧
    (runRec (startRecording initLive) [RecEvent.timerFire]).stopCount = 1 ∧
    (runRec (startRecording initLive) [RecEvent.timerFire]).reviewing = true := by
  have ha : RecActive (startRecording initLive) := by
    simp [RecActive, startRecording, initLive]
  have hd := runRec_active ha es hne
  obtain ⟨h1, h2, h3, h4⟩ := hd
  have hone : RecDone (runRec (startRecording initLive) [RecEvent.timerFire]) :=
    runRec_active ha [RecEvent.timerFire] (by simp)
  refine ⟨rfl, rfl, h3, h4, h1, rfl, ?_, ?_, hone.2.2.1, hone.2.2.2⟩
  · simp [stopRecording, startRecording, initLive, recorderStop]
  · simp [stopRecording, startRecording, initLive, recorderStop, hardStopFire]

/-- Witness for C2 at the concrete one-event trace in which only the
30-second timer fires. -/
theorem recording_stops_exactly_once_witness :
    (runRec (startRecording initLive) [RecEvent.timerFire]).stopCount = 1 ∧
    (runRec (startRecording initLive) [RecEvent.timerFire]).reviewing = true ∧
    (startRecording initLive).timeoutDelayMs = 30000 :=
  ⟨(recording_stops_exactly_once [RecEvent.timerFire] (by decide)).2.2.1,
   (recording_stops_exactly_once [RecEvent.timerFire] (by decide)).2.2.2.1,
   (recording_stops_exactly_once [RecEvent.timerFire] (by decide)).1⟩
